import Mathlib

/-!
Shallow embedding of the `text.rs` module of the `pdf-writer` crate: the
content-stream text builder (`TextStream`), the font object writers
(`Type0Font`, `FontDescriptor`, `Widths`), the `FontFlags` bit-set, the
`SystemInfo` triple and the CMap generator `write_cmap`.

Byte buffers are modelled as `List Nat` of byte values.  The buffer
primitives (`push_val`, `push_int`, `push_hex`, `push_hex_u16`) and the
container writers (`Dict`, `Array`, `Any`) are declared in the crate outside
this module; they are modelled from the spec where noted.
-/

/-- A byte buffer: a list of byte values. -/
abbrev Bytes := List Nat

/-- The ASCII bytes of a string literal (all emitted text is ASCII). -/
def bytes (s : String) : Bytes := s.data.map Char.toNat

/-- Modelled from the spec (Primitive Formatter, not under src/): the hex digit
character (lowercase) for a value below 16. -/
def hexDigit (n : Nat) : Nat := if n < 10 then 48 + n else 87 + n

/-- Modelled from the spec (Primitive Formatter, not under src/): `push_hex`
expands one byte into exactly two hex digits. -/
def pushHex (b : Nat) : Bytes := [hexDigit (b / 16), hexDigit (b % 16)]

/-- Modelled from the spec (Primitive Formatter, not under src/):
`push_hex_u16` writes a 16-bit value as four hex digits, high byte first. -/
def pushHexU16 (v : Nat) : Bytes := pushHex (v / 256) ++ pushHex (v % 256)

/-- Decimal digits (fuel-indexed helper). -/
def fmtNatAux : Nat → Nat → Bytes
  | 0, _ => []
  | fuel + 1, n => if n < 10 then [48 + n] else fmtNatAux fuel (n / 10) ++ [48 + n % 10]

/-- Modelled from the spec (Primitive Formatter, not under src/): a natural
number in decimal ASCII, no leading zeros. -/
def fmtNat (n : Nat) : Bytes := fmtNatAux (n + 1) n

/-- Modelled from the spec (Primitive Formatter, not under src/): `push_int`
writes an integer in decimal ASCII with an optional leading minus sign. -/
def fmtInt (i : Int) : Bytes := if i < 0 then 45 :: fmtNat i.natAbs else fmtNat i.natAbs

/-- Modelled from the spec (Primitive Formatter, not under src/): a `Name`
value renders as a slash followed by its bytes (no escaping). -/
def fmtName (n : Bytes) : Bytes := 47 :: n

/-- Modelled from the spec (Primitive Formatter, not under src/): a `Str`
value renders as its bytes in parentheses; escaping is left unspecified by the
spec and is not relied upon by any claim. -/
def fmtStr (s : Bytes) : Bytes := 40 :: (s ++ [41])

/-- Modelled from the spec (Primitive Formatter, not under src/): a 32-bit
float value, represented by the exact decimal value `mantissa / 10 ^ scale`.
The spec requires decimal notation only, with trailing zeros and an
unnecessary trailing decimal point trimmed. -/
structure F32 where
  mantissa : Int
  scale : Nat
deriving DecidableEq

/-- The fractional digits of `fr`, exactly `s` of them, most significant first. -/
def padDigits : Nat → Nat → Bytes
  | _, 0 => []
  | fr, s + 1 => padDigits (fr / 10) s ++ [48 + fr % 10]

/-- Remove trailing zero digits. -/
def dropTrailingZeros (l : Bytes) : Bytes :=
  (l.reverse.dropWhile (fun b => b == 48)).reverse

/-- Modelled from the spec (Primitive Formatter, not under src/): float
rendering in plain decimal, trimming trailing zeros and an unnecessary
trailing decimal point. -/
def fmtF32 (x : F32) : Bytes :=
  let sign : Bytes := if x.mantissa < 0 then [45] else []
  let a := x.mantissa.natAbs
  let ip := a / 10 ^ x.scale
  let fr := dropTrailingZeros (padDigits (a % 10 ^ x.scale) x.scale)
  sign ++ fmtNat ip ++ (if fr.isEmpty then [] else 46 :: fr)

/-- `TextStream`: a stream of text operations accumulating a byte buffer. -/
structure TextStream where
  buf : Bytes

/-- `TextStream::new`: create a new, empty text stream; emits `BT`. -/
def TextStream.new : TextStream := ⟨bytes "BT\n"⟩

/-- `Tf` operator: select a font by name and set the font size. -/
def TextStream.tf (s : TextStream) (font : Bytes) (size : F32) : TextStream :=
  ⟨s.buf ++ fmtName font ++ [32] ++ fmtF32 size ++ bytes " Tf\n"⟩

/-- `Td` operator: move to the start of the next line. -/
def TextStream.td (s : TextStream) (x y : F32) : TextStream :=
  ⟨s.buf ++ fmtF32 x ++ [32] ++ fmtF32 y ++ bytes " Td\n"⟩

/-- `Tm` operator: set the text matrix. -/
def TextStream.tm (s : TextStream) (a b c d e f : F32) : TextStream :=
  ⟨s.buf ++ fmtF32 a ++ [32] ++ fmtF32 b ++ [32] ++ fmtF32 c ++ [32] ++
    fmtF32 d ++ [32] ++ fmtF32 e ++ [32] ++ fmtF32 f ++ bytes " Tm\n"⟩

/-- `Tj` operator: write text as a hex string; raw bytes, encoding up to the
caller. -/
def TextStream.tj (s : TextStream) (text : Bytes) : TextStream :=
  ⟨s.buf ++ [60] ++ (text.map pushHex).flatten ++ bytes "> Tj\n"⟩

/-- `TextStream::end`: return the raw constructed byte stream; emits `ET`. -/
def TextStream.end_ (s : TextStream) : Bytes := s.buf ++ bytes "ET"

/-- A document object value, as accumulated by the container writers. -/
inductive Obj where
  | int (i : Int)
  | real (x : F32)
  | name (n : Bytes)
  | str (s : Bytes)
  | ref (r : Int)
  | array (items : List Obj)
  | dict (pairs : List (Bytes × Obj))

/-- Modelled from the spec (Slot/Guard container builders, not under src/): a
`Dict` is an ordered list of key/value entries; insertion order is preserved. -/
abbrev Dict := List (Bytes × Obj)

/-- Modelled from the spec (Slot/Guard container builders, not under src/):
`Dict::pair` writes one key together with an immediate value, appending one
entry. -/
def Dict.pair (d : Dict) (key : Bytes) (value : Obj) : Dict := d ++ [(key, value)]

/-- `Type0Font`: writer for a Type-0 (composite) font. -/
structure Type0Font where
  dict : Dict

/-- `Type0Font::start`: converts the slot into a dict and writes the
`Type`/`Subtype` pairs. -/
def Type0Font.start : Type0Font :=
  ⟨(Dict.pair [] (bytes "Type") (Obj.name (bytes "Font"))).pair
    (bytes "Subtype") (Obj.name (bytes "Type0"))⟩

/-- Write the `/BaseFont` attribute. -/
def Type0Font.base_font (f : Type0Font) (name : Bytes) : Type0Font :=
  ⟨f.dict.pair (bytes "BaseFont") (Obj.name name)⟩

/-- Write the `/Encoding` attribute as a predefined encoding. -/
def Type0Font.encoding_predefined (f : Type0Font) (encoding : Bytes) : Type0Font :=
  ⟨f.dict.pair (bytes "Encoding") (Obj.name encoding)⟩

/-- Write the `/Encoding` attribute as a reference to a character map stream. -/
def Type0Font.encoding_cmap (f : Type0Font) (cmap : Int) : Type0Font :=
  ⟨f.dict.pair (bytes "Encoding") (Obj.ref cmap)⟩

/-- Write the `/DescendantFonts` attribute as a one-element array containing a
reference to a CID font (`dict.key(..).array().item(cid_font)`). -/
def Type0Font.descendant_font (f : Type0Font) (cid_font : Int) : Type0Font :=
  ⟨f.dict.pair (bytes "DescendantFonts") (Obj.array [Obj.ref cid_font])⟩

/-- Write the `/ToUnicode` attribute as a reference to a character map stream. -/
def Type0Font.to_unicode (f : Type0Font) (cmap : Int) : Type0Font :=
  ⟨f.dict.pair (bytes "ToUnicode") (Obj.ref cmap)⟩

/-- `FontFlags`: bitflags describing various characteristics of fonts, stored
as a single `u32` integer (the `bitflags` macro is modelled from the spec as a
bit-set with OR-combination). -/
structure FontFlags where
  bits : Nat

def FontFlags.FIXED_PITCH : FontFlags := ⟨1⟩
def FontFlags.SERIF : FontFlags := ⟨2⟩
def FontFlags.SYMBOLIC : FontFlags := ⟨4⟩
def FontFlags.SCRIPT : FontFlags := ⟨8⟩
def FontFlags.NON_SYMBOLIC : FontFlags := ⟨32⟩
def FontFlags.ITALIC : FontFlags := ⟨64⟩
def FontFlags.ALL_CAP : FontFlags := ⟨65536⟩
def FontFlags.SMALL_CAP : FontFlags := ⟨131072⟩
def FontFlags.FORCE_BOLD : FontFlags := ⟨262144⟩

/-- OR-combination of two flag sets (`|` of the `bitflags` type). -/
def FontFlags.union (a b : FontFlags) : FontFlags := ⟨a.bits ||| b.bits⟩

/-- The named flag constants declared in the source, in declaration order. -/
def FontFlags.constants : List FontFlags :=
  [FontFlags.FIXED_PITCH, FontFlags.SERIF, FontFlags.SYMBOLIC, FontFlags.SCRIPT,
   FontFlags.NON_SYMBOLIC, FontFlags.ITALIC, FontFlags.ALL_CAP,
   FontFlags.SMALL_CAP, FontFlags.FORCE_BOLD]

/-- The Rust cast `as i32` from a `u32` value (two's-complement wrap). -/
def i32ofU32 (n : Nat) : Int := if n < 2 ^ 31 then (n : Int) else (n : Int) - 2 ^ 32

/-- `FontDescriptor`: writer for a font descriptor. -/
structure FontDescriptor where
  dict : Dict

/-- `FontDescriptor::start`: converts the slot into a dict and writes the
`Type` pair. -/
def FontDescriptor.start : FontDescriptor :=
  ⟨Dict.pair [] (bytes "Type") (Obj.name (bytes "FontDescriptor"))⟩

/-- Write the `/FontName` attribute. -/
def FontDescriptor.font_name (fd : FontDescriptor) (name : Bytes) : FontDescriptor :=
  ⟨fd.dict.pair (bytes "FontName") (Obj.name name)⟩

/-- Write the `/Flags` attribute: `flags.bits() as i32`. -/
def FontDescriptor.font_flags (fd : FontDescriptor) (flags : FontFlags) : FontDescriptor :=
  ⟨fd.dict.pair (bytes "Flags") (Obj.int (i32ofU32 flags.bits))⟩

/-- `Widths`: writer for the width array in a CID font, wrapping an `Array`
writer (modelled from the spec as the ordered list of accumulated items). -/
structure Widths where
  array : List Obj

/-- `Widths::start`: converts the slot into an array writer. -/
def Widths.start : Widths := ⟨[]⟩

/-- Specifies individual widths for a range of CIDs starting at `start`:
appends `i32::from(start)` and then a nested array of the widths. -/
def Widths.individual (w : Widths) (start : Fin 65536) (widths : List F32) : Widths :=
  ⟨w.array ++ [Obj.int (start.val : Int), Obj.array (widths.map Obj.real)]⟩

/-- Specifies the same width for all CIDs in the inclusive range `first` to
`last`: appends `i32::from(first)`, `i32::from(last)` and the width. -/
def Widths.same (w : Widths) (first last : Fin 65536) (width : F32) : Widths :=
  ⟨w.array ++ [Obj.int (first.val : Int), Obj.int (last.val : Int), Obj.real width]⟩

/-- `SystemInfo`: specifics about a character collection. -/
structure SystemInfo where
  registry : Bytes
  ordering : Bytes
  supplement : Int

/-- `SystemInfo::write`: writes the triple as a 3-entry dict. -/
def SystemInfo.write (info : SystemInfo) : Obj :=
  Obj.dict (((Dict.pair [] (bytes "Registry") (Obj.str info.registry)).pair
    (bytes "Ordering") (Obj.str info.ordering)).pair
    (bytes "Supplement") (Obj.int info.supplement))

/-- A Rust `char`: a Unicode scalar value, i.e. a code point outside the
surrogate range `U+D800`..`U+DFFF` and below `U+110000`. -/
structure UChar where
  val : Nat
  valid : val < 55296 ∨ (57343 < val ∧ val < 1114112)

/-- UTF-16 encoding of a Unicode scalar value (`char::encode_utf16`): one code
unit below U+10000, otherwise a surrogate pair. -/
def encodeUtf16 (c : UChar) : List Nat :=
  if c.val < 65536 then [c.val]
  else [55296 + (c.val - 65536) / 1024, 56320 + (c.val - 65536) % 1024]

/-- One `bfchar` mapping line of the CMap body: the 4-hex-digit code in angle
brackets, then the UTF-16 code units of the character in angle brackets. -/
def bfcharLine (cid : Fin 65536) (c : UChar) : Bytes :=
  [60] ++ pushHexU16 cid.val ++ bytes "> <" ++
    ((encodeUtf16 c).map pushHexU16).flatten ++ bytes ">\n"

/-- The lines emitted by the `for (cid, c) in mapping` loop of `write_cmap`. -/
def bfcharBlock (items : List (Fin 65536 × UChar)) : Bytes :=
  (items.map (fun p => bfcharLine p.1 p.2)).flatten

/-- The static and dynamic header of the CMap script (`write_cmap`, first two
blocks). -/
def cmapHeader (name : Bytes) (info : SystemInfo) : Bytes :=
  bytes "%!PS-Adobe-3.0 Resource-CMap\n" ++
  bytes "%%DocumentNeededResources: procset CIDInit\n" ++
  bytes "%%IncludeResource: procset CIDInit\n" ++
  bytes "%%BeginResource: CMap " ++ name ++ [10] ++
  bytes "%%Title: (" ++ name ++ [32] ++ info.registry ++ [32] ++
  info.ordering ++ [32] ++ fmtInt info.supplement ++ bytes ")\n" ++
  bytes "%%Version: 1\n" ++
  bytes "%%EndComments\n"

/-- The general body of the CMap script up to the codespace range: opens the
resource and dict scopes, writes the `CIDSystemInfo` 3-entry dict literal and
the `CMapName`/`CMapVersion`/`CMapType` entries. -/
def cmapBodyPrefix (name : Bytes) (info : SystemInfo) : Bytes :=
  bytes "/CIDInit /ProcSet findresource begin\n" ++
  bytes "9 dict begin\n" ++
  bytes "begincmap\n" ++
  bytes "/CIDSystemInfo 3 dict dup begin\n" ++
  bytes "    /Registry " ++ fmtStr info.registry ++ bytes " def\n" ++
  bytes "    /Ordering " ++ fmtStr info.ordering ++ bytes " def\n" ++
  bytes "    /Supplement " ++ fmtInt info.supplement ++ bytes " def\n" ++
  bytes "end def\n" ++
  bytes "/CMapName " ++ fmtName name ++ bytes " def\n" ++
  bytes "/CMapVersion 1 def\n" ++
  bytes "/CMapType 0 def\n"

/-- The codespace range declaration of the CMap body: a single range covering
the whole 16-bit code space. -/
def cmapCodespace : Bytes :=
  bytes "1 begincodespacerange\n" ++
  bytes "<0000> <ffff>\n" ++
  bytes "endcodespacerange\n"

/-- The mappings section: the count token taken from the iterator's declared
length, the `beginbfchar` line, the mapping lines, and `endbfchar`. -/
def cmapMapping (declaredLen : Nat) (items : List (Fin 65536 × UChar)) : Bytes :=
  fmtNat declaredLen ++ bytes " beginbfchar\n" ++ bfcharBlock items ++
  bytes "endbfchar\n"

/-- The fixed footer closing all opened scopes and ending the resource. -/
def cmapFooter : Bytes :=
  bytes "endcmap\n" ++
  bytes "CMapName currentdict /CMap defineresource pop\n" ++
  bytes "end\n" ++
  bytes "end\n" ++
  bytes "%%EndResource\n" ++
  bytes "%%EOF"

/-- The complete byte payload assembled by `write_cmap`, in source append
order.  The `ExactSizeIterator` argument is modelled by its declared length
`declaredLen` (what `mapping.len()` returns) together with the list of items
it actually yields. -/
def cmapBytes (name : Bytes) (info : SystemInfo) (declaredLen : Nat)
    (items : List (Fin 65536 × UChar)) : Bytes :=
  cmapHeader name info ++ cmapBodyPrefix name info ++ cmapCodespace ++
  cmapMapping declaredLen items ++ cmapFooter

/-- The metadata dict written for the registered CMap stream: `Type`,
`CMapName` and `CIDSystemInfo`. -/
def cmapMetaDict (name : Bytes) (info : SystemInfo) : Dict :=
  ((Dict.pair [] (bytes "Type") (Obj.name (bytes "CMap"))).pair
    (bytes "CMapName") (Obj.name name)).pair
    (bytes "CIDSystemInfo") info.write

/-- Modelled from the spec (external stream-registration interface, not under
src/): the writer records each registered stream object, in order, as a
(reference, metadata dict, payload) triple. -/
structure PdfWriter where
  streams : List (Int × Dict × Bytes)

/-- `write_cmap`: assembles the CMap script and registers it exactly once via
`w.stream(id, &buf)`, then writes the metadata pairs on the returned dict. -/
def write_cmap (w : PdfWriter) (id : Int) (name : Bytes) (info : SystemInfo)
    (declaredLen : Nat) (items : List (Fin 65536 × UChar)) : PdfWriter :=
  ⟨w.streams ++ [(id, cmapMetaDict name info, cmapBytes name info declaredLen items)]⟩

/-- A byte is an ASCII hex digit (lowercase letters, as emitted). -/
def isHexDigit (b : Nat) : Bool :=
  (48 ≤ b && b ≤ 57) || (97 ≤ b && b ≤ 102)

theorem hexDigit_ge (n : Nat) : 48 ≤ hexDigit n := by
  unfold hexDigit; split <;> omega

theorem ten_not_mem_pushHex (b : Nat) : 10 ∉ pushHex b := by
  have h1 := hexDigit_ge (b / 16)
  have h2 := hexDigit_ge (b % 16)
  simp only [pushHex, List.mem_cons, List.not_mem_nil, or_false]
  omega

theorem ten_not_mem_pushHexU16 (v : Nat) : 10 ∉ pushHexU16 v := by
  rw [pushHexU16]
  intro h
  rcases List.mem_append.mp h with h | h
  · exact ten_not_mem_pushHex _ h
  · exact ten_not_mem_pushHex _ h

theorem count_ten_bfcharLine (cid : Fin 65536) (c : UChar) :
    (bfcharLine cid c).count 10 = 1 := by
  have h1 : (pushHexU16 cid.val).count 10 = 0 :=
    List.count_eq_zero.mpr (ten_not_mem_pushHexU16 _)
  have h2 : (((encodeUtf16 c).map pushHexU16).flatten).count 10 = 0 := by
    rw [List.count_eq_zero]
    intro hmem
    obtain ⟨l, hl, hmem⟩ := List.mem_flatten.mp hmem
    obtain ⟨u, _, rfl⟩ := List.mem_map.mp hl
    exact ten_not_mem_pushHexU16 u hmem
  rw [bfcharLine, List.count_append, List.count_append, List.count_append,
    List.count_append, h1, h2]
  decide

theorem count_ten_bfcharBlock (items : List (Fin 65536 × UChar)) :
    (bfcharBlock items).count 10 = items.length := by
  induction items with
  | nil => rfl
  | cons p rest ih =>
    rw [bfcharBlock, List.map_cons, List.flatten_cons, List.count_append]
    rw [bfcharBlock] at ih
    rw [ih, count_ten_bfcharLine, List.length_cons]
    omega

theorem fmtNatAux_digits (fuel : Nat) :
    ∀ n, ∀ b ∈ fmtNatAux fuel n, 48 ≤ b ∧ b ≤ 57 := by
  induction fuel with
  | zero => intro n b hb; simp [fmtNatAux] at hb
  | succ fuel ih =>
    intro n b hb
    rw [fmtNatAux] at hb
    split at hb
    · simp only [List.mem_singleton] at hb
      omega
    · rcases List.mem_append.mp hb with hb | hb
      · exact ih _ _ hb
      · simp only [List.mem_singleton] at hb
        have : n % 10 < 10 := Nat.mod_lt _ (by omega)
        omega

theorem fmtNat_digits (n : Nat) : ∀ b ∈ fmtNat n, 48 ≤ b ∧ b ≤ 57 :=
  fmtNatAux_digits (n + 1) n

theorem no_minus_fmtInt (i : Int) (h : 0 ≤ i) : 45 ∉ fmtInt i := by
  rw [fmtInt, if_neg (by omega)]
  intro hb
  have := fmtNat_digits _ _ hb
  omega

theorem isHexDigit_hexDigit : ∀ n, n < 16 → isHexDigit (hexDigit n) = true := by
  decide

theorem pushHex_hex (b : Nat) (h : b < 256) :
    ∀ x ∈ pushHex b, isHexDigit x = true := by
  intro x hx
  simp only [pushHex, List.mem_cons, List.not_mem_nil, or_false] at hx
  rcases hx with rfl | rfl
  · exact isHexDigit_hexDigit _ (by omega)
  · exact isHexDigit_hexDigit _ (by omega)

theorem pushHexU16_length (v : Nat) : (pushHexU16 v).length = 4 := rfl

theorem pushHexU16_hex (v : Nat) (h : v < 65536) :
    ∀ x ∈ pushHexU16 v, isHexDigit x = true := by
  intro x hx
  rcases List.mem_append.mp hx with hx | hx
  · exact pushHex_hex _ (by omega) x hx
  · exact pushHex_hex _ (by omega) x hx

theorem encodeUtf16_units_lt (c : UChar) : ∀ u ∈ encodeUtf16 c, u < 65536 := by
  rcases c.valid with hv | hv <;>
  · intro u hu
    rw [encodeUtf16] at hu
    split at hu <;>
      simp only [List.mem_cons, List.mem_singleton, List.not_mem_nil, or_false] at hu
    · omega
    · have : (c.val - 65536) / 1024 < 1024 := by omega
      have : (c.val - 65536) % 1024 < 1024 := Nat.mod_lt _ (by omega)
      omega

theorem tj_flatten_length (t : Bytes) :
    ((t.map pushHex).flatten).length = 2 * t.length := by
  induction t with
  | nil => rfl
  | cons b rest ih =>
    rw [List.map_cons, List.flatten_cons, List.length_append, ih,
      List.length_cons]
    simp [pushHex]
    omega

/-- C1: under the precondition that the iterator's declared length equals the
number of items it yields, the CMap body contains exactly `len(mapping)`
newline-terminated lines between the `beginbfchar` and `endbfchar` tokens, and
the decimal count token written immediately before `beginbfchar` is the
decimal rendering of the declared size (it is not recomputed from the items),
which under the precondition equals the decimal rendering of the number of
emitted lines. -/
theorem write_cmap_count_correct (name : Bytes) (info : SystemInfo)
    (declaredLen : Nat) (items : List (Fin 65536 × UChar))
    (h : declaredLen = items.length) :
    cmapBytes name info declaredLen items =
      cmapHeader name info ++ cmapBodyPrefix name info ++ cmapCodespace ++
        (fmtNat declaredLen ++ bytes " beginbfchar\n" ++ bfcharBlock items ++
          bytes "endbfchar\n") ++ cmapFooter ∧
    (bfcharBlock items).count 10 = items.length ∧
    fmtNat declaredLen = fmtNat items.length :=
  ⟨rfl, count_ten_bfcharBlock items, by rw [h]⟩

/-- C1 witness: a concrete one-entry exact-size mapping. -/
theorem write_cmap_count_correct_witness :
    (1 = ([((72 : Fin 65536), (⟨66, by decide⟩ : UChar))]).length) ∧
    (bfcharBlock [((72 : Fin 65536), (⟨66, by decide⟩ : UChar))]).count 10 =
      ([((72 : Fin 65536), (⟨66, by decide⟩ : UChar))]).length :=
  ⟨by decide,
    (write_cmap_count_correct (bytes "X") ⟨bytes "R", bytes "O", 0⟩ 1
      [((72 : Fin 65536), ⟨66, by decide⟩)] (by decide)).2.1⟩

/-- C2: each `bfchar` line pairs the 4-hex-digit code with the UTF-16 code
units of the mapped scalar character, hex-encoded with four hex digits each:
two units when the code point is at or above U+10000, exactly one below. -/
theorem bfcharLine_utf16_units (cid : Fin 65536) (c : UChar) :
    bfcharLine cid c =
      [60] ++ pushHexU16 cid.val ++ bytes "> <" ++
        ((encodeUtf16 c).map pushHexU16).flatten ++ bytes ">\n" ∧
    (encodeUtf16 c).length = (if 65536 ≤ c.val then 2 else 1) ∧
    (∀ u ∈ encodeUtf16 c,
      (pushHexU16 u).length = 4 ∧ ∀ b ∈ pushHexU16 u, isHexDigit b = true) ∧
    ((encodeUtf16 c).map pushHexU16).flatten.length =
      (if 65536 ≤ c.val then 8 else 4) := by
  refine ⟨rfl, ?_, ?_, ?_⟩
  · rw [encodeUtf16]
    split <;> split <;> first | rfl | omega
  · intro u hu
    exact ⟨pushHexU16_length u, pushHexU16_hex u (encodeUtf16_units_lt c u hu)⟩
  · rw [encodeUtf16]
    split <;> split <;>
      simp only [List.map_cons, List.map_nil, List.flatten_cons,
        List.flatten_nil, List.length_append, List.append_nil,
        pushHexU16_length, List.length_nil] <;> omega

/-- C3: the example chain yields the exact byte sequence, and in general
`new()` emits `BT`, each operator method appends its operands followed by its
operator keyword and a newline onto the existing buffer in call order, and
`end()` appends `ET` and yields the buffer. -/
theorem textstream_example :
    ((((TextStream.new.tf (bytes "F1") ⟨12, 0⟩).td ⟨0, 0⟩ ⟨0, 0⟩).tj
      (bytes "Hi")).end_) = bytes "BT\n/F1 12 Tf\n0 0 Td\n<4869> Tj\nET" ∧
    TextStream.new.buf = bytes "BT\n" ∧
    (∀ s font size, (TextStream.tf s font size).buf =
      s.buf ++ fmtName font ++ [32] ++ fmtF32 size ++ bytes " Tf\n") ∧
    (∀ s x y, (TextStream.td s x y).buf =
      s.buf ++ fmtF32 x ++ [32] ++ fmtF32 y ++ bytes " Td\n") ∧
    (∀ s a b c d e f, (TextStream.tm s a b c d e f).buf =
      s.buf ++ fmtF32 a ++ [32] ++ fmtF32 b ++ [32] ++ fmtF32 c ++ [32] ++
        fmtF32 d ++ [32] ++ fmtF32 e ++ [32] ++ fmtF32 f ++ bytes " Tm\n") ∧
    (∀ s t, (TextStream.tj s t).buf =
      s.buf ++ [60] ++ (t.map pushHex).flatten ++ bytes "> Tj\n") ∧
    (∀ s, TextStream.end_ s = s.buf ++ bytes "ET") :=
  ⟨by decide, rfl, fun _ _ _ => rfl, fun _ _ _ => rfl,
    fun _ _ _ _ _ _ _ => rfl, fun _ _ => rfl, fun _ => rfl⟩

/-- C4: starting a `Type0Font` pre-seeds the `Type`/`Subtype` pairs, and the
example call chain produces the expected five-entry dictionary, with
`descendant_font` writing a one-element array holding the given reference. -/
theorem type0font_example :
    (((Type0Font.start.base_font (bytes "Arial-Bold")).encoding_predefined
        (bytes "Identity-H")).descendant_font 5).dict =
      [(bytes "Type", Obj.name (bytes "Font")),
       (bytes "Subtype", Obj.name (bytes "Type0")),
       (bytes "BaseFont", Obj.name (bytes "Arial-Bold")),
       (bytes "Encoding", Obj.name (bytes "Identity-H")),
       (bytes "DescendantFonts", Obj.array [Obj.ref 5])] ∧
    Type0Font.start.dict =
      [(bytes "Type", Obj.name (bytes "Font")),
       (bytes "Subtype", Obj.name (bytes "Type0"))] :=
  ⟨rfl, rfl⟩

/-- C5: `same(10, 12, 500.0)` followed by `individual(20, [1.0, 2.0])`
produces the array shape `[10 12 500 20 [1 2]]`; in general `same` appends
first, last and the uniform width as three flat items, `individual` appends
the start CID followed by a nested array of the widths, entries appear in
call order with no merging across calls. -/
theorem widths_example :
    ((Widths.start.same 10 12 ⟨500, 0⟩).individual 20 [⟨1, 0⟩, ⟨2, 0⟩]).array =
      [Obj.int 10, Obj.int 12, Obj.real ⟨500, 0⟩, Obj.int 20,
        Obj.array [Obj.real ⟨1, 0⟩, Obj.real ⟨2, 0⟩]] ∧
    (∀ w first last width, (Widths.same w first last width).array =
      w.array ++ [Obj.int (first.val : Int), Obj.int (last.val : Int),
        Obj.real width]) ∧
    (∀ w s ws, (Widths.individual w s ws).array =
      w.array ++ [Obj.int (s.val : Int), Obj.array (ws.map Obj.real)]) :=
  ⟨rfl, fun _ _ _ _ => rfl, fun _ _ _ => rfl⟩

/-- C6 counterexample: the source declares nine named flag constants, not
ten. -/
theorem fontflags_nine_constants :
    FontFlags.constants.length = 9 ∧ FontFlags.constants.length ≠ 10 :=
  ⟨rfl, by decide⟩

/-- C6 (amended): `FontFlags` is a bit-set of nine named characteristics
stored as a single integer via OR-combination; `FontDescriptor::font_flags`
writes that OR-combined integer (cast `as i32`) as the value of the `/Flags`
key; no validation rejects setting symbolic and non-symbolic together. -/
theorem fontflags_bitset (fd : FontDescriptor) (flags a b : FontFlags) :
    FontFlags.constants.length = 9 ∧
    (FontFlags.union a b).bits = a.bits ||| b.bits ∧
    (fd.font_flags flags).dict =
      fd.dict.pair (bytes "Flags") (Obj.int (i32ofU32 flags.bits)) ∧
    (fd.font_flags (FontFlags.SYMBOLIC.union FontFlags.NON_SYMBOLIC)).dict =
      fd.dict.pair (bytes "Flags") (Obj.int 36) :=
  ⟨rfl, rfl, rfl, rfl⟩

/-- C7: for every input, the CMap body opens the resource/dict scopes, writes
`CIDSystemInfo` as a 3-entry dict literal, writes
`CMapName`/`CMapVersion`/`CMapType`, and declares exactly one codespace range
covering the full 16-bit code space via the literal lines
`1 begincodespacerange`, `<0000> <ffff>` and `endcodespacerange`, regardless
of the mapping contents. -/
theorem write_cmap_fixed_body (name : Bytes) (info : SystemInfo)
    (declaredLen : Nat) (items : List (Fin 65536 × UChar)) :
    cmapBytes name info declaredLen items =
      cmapHeader name info ++ cmapBodyPrefix name info ++ cmapCodespace ++
        cmapMapping declaredLen items ++ cmapFooter ∧
    cmapBodyPrefix name info =
      bytes "/CIDInit /ProcSet findresource begin\n" ++
      bytes "9 dict begin\n" ++
      bytes "begincmap\n" ++
      bytes "/CIDSystemInfo 3 dict dup begin\n" ++
      bytes "    /Registry " ++ fmtStr info.registry ++ bytes " def\n" ++
      bytes "    /Ordering " ++ fmtStr info.ordering ++ bytes " def\n" ++
      bytes "    /Supplement " ++ fmtInt info.supplement ++ bytes " def\n" ++
      bytes "end def\n" ++
      bytes "/CMapName " ++ fmtName name ++ bytes " def\n" ++
      bytes "/CMapVersion 1 def\n" ++
      bytes "/CMapType 0 def\n" ∧
    cmapCodespace =
      bytes "1 begincodespacerange\n" ++ bytes "<0000> <ffff>\n" ++
        bytes "endcodespacerange\n" ∧
    cmapCodespace <:+: cmapBytes name info declaredLen items :=
  ⟨rfl, rfl, rfl,
    ⟨cmapHeader name info ++ cmapBodyPrefix name info,
     cmapMapping declaredLen items ++ cmapFooter,
     by simp only [cmapBytes, List.append_assoc]⟩⟩

/-- C8: `write_cmap` registers the assembled byte buffer with the external
stream-registration interface exactly once, together with a metadata dict of
exactly three keys: `Type` = `CMap`, `CMapName` = the given name, and
`CIDSystemInfo` as a nested 3-entry dictionary built from the given
`SystemInfo`. -/
theorem write_cmap_registers_stream (w : PdfWriter) (id : Int) (name : Bytes)
    (info : SystemInfo) (declaredLen : Nat)
    (items : List (Fin 65536 × UChar)) :
    (write_cmap w id name info declaredLen items).streams =
      w.streams ++
        [(id, cmapMetaDict name info, cmapBytes name info declaredLen items)] ∧
    cmapMetaDict name info =
      [(bytes "Type", Obj.name (bytes "CMap")),
       (bytes "CMapName", Obj.name name),
       (bytes "CIDSystemInfo", Obj.dict
         [(bytes "Registry", Obj.str info.registry),
          (bytes "Ordering", Obj.str info.ordering),
          (bytes "Supplement", Obj.int info.supplement)])] ∧
    (cmapMetaDict name info).length = 3 :=
  ⟨rfl, rfl, rfl⟩

/-- C9: `tj` appends exactly one `<`, then two hex digits per input byte in
order, then `> Tj` and a newline; for the empty slice it appends the six
bytes `<> Tj` plus newline as an empty but well-formed hex-string token, and
it never alters previously written output. -/
theorem tj_hex_string (s : TextStream) (t : Bytes) (h : ∀ b ∈ t, b < 256) :
    (s.tj t).buf = s.buf ++ [60] ++ (t.map pushHex).flatten ++ bytes "> Tj\n" ∧
    ((t.map pushHex).flatten).length = 2 * t.length ∧
    (∀ b ∈ t, pushHex b = [hexDigit (b / 16), hexDigit (b % 16)] ∧
      ∀ x ∈ pushHex b, isHexDigit x = true) ∧
    (s.tj []).buf = s.buf ++ bytes "<> Tj\n" ∧
    (bytes "<> Tj\n").length = 6 := by
  refine ⟨rfl, tj_flatten_length t, ?_, ?_, rfl⟩
  · intro b hb
    exact ⟨rfl, pushHex_hex b (h b hb)⟩
  · rw [TextStream.tj]
    simp only [List.map_nil, List.flatten_nil, List.append_nil,
      List.append_assoc]
    rfl

/-- C9 witness: the example input `b"Hi"`. -/
theorem tj_hex_string_witness :
    (∀ b ∈ bytes "Hi", b < 256) ∧
    (TextStream.new.tj (bytes "Hi")).buf =
      TextStream.new.buf ++ [60] ++ ((bytes "Hi").map pushHex).flatten ++
        bytes "> Tj\n" :=
  ⟨by decide, (tj_hex_string TextStream.new (bytes "Hi") (by decide)).1⟩

/-- C10: `same` and `individual` widen their `u16` CID arguments to `i32`
losslessly, so every CID entry they append is a nonnegative integer at most
65535, and its decimal serialization carries no minus sign. -/
theorem widths_cid_in_range (first last start : Fin 65536) (w w' : Widths)
    (width : F32) (ws : List F32) :
    (Widths.same w first last width).array =
      w.array ++ [Obj.int (first.val : Int), Obj.int (last.val : Int),
        Obj.real width] ∧
    (Widths.individual w' start ws).array =
      w'.array ++ [Obj.int (start.val : Int), Obj.array (ws.map Obj.real)] ∧
    (0 ≤ (first.val : Int) ∧ (first.val : Int) ≤ 65535) ∧
    (0 ≤ (last.val : Int) ∧ (last.val : Int) ≤ 65535) ∧
    (0 ≤ (start.val : Int) ∧ (start.val : Int) ≤ 65535) ∧
    45 ∉ fmtInt (first.val : Int) ∧
    45 ∉ fmtInt (last.val : Int) ∧
    45 ∉ fmtInt (start.val : Int) := by
  have h1 := first.isLt
  have h2 := last.isLt
  have h3 := start.isLt
  refine ⟨rfl, rfl, ⟨by omega, by omega⟩, ⟨by omega, by omega⟩,
    ⟨by omega, by omega⟩, ?_, ?_, ?_⟩ <;>
    exact no_minus_fmtInt _ (by omega)
